import Mathlib

/-!
Verification of the djkit / commonkit utility library against its
natural-language specification.  Python strings are modelled as `List Char`,
Python integers as `Int`/`Nat`, Python dictionaries as association lists, and
fallible Python code (raising exceptions) as `Except PyErr`.
-/

/-- Detail payload of a Django REST framework `ValidationError`: either a plain
message string, the `{"field_errors": ..., "row": i}` dictionary raised by
`TableUploadField.process_table`, or the `{"original_exception", "message",
"row"}` dictionary raised by `TableUploadField.fail` for the `"row"` key. -/
inductive VDetail where
  | text (s : String)
  | wrappedRow (field_errors : VDetail) (row : Nat)
  | tableRowError (original_exception : String) (message : String) (row : String)
deriving DecidableEq, Repr

/-- Exceptions raised by the modelled Python code. `validationError` carries the
detail and the optional error code of `rest_framework.serializers.ValidationError`. -/
inductive PyErr where
  | validationError (detail : VDetail) (code : Option String)
  | keyError (key : String)
  | typeError (msg : String)
  | attributeError (msg : String)
  | valueError (msg : String)
deriving DecidableEq, Repr

instance {ε α : Type _} [DecidableEq ε] [DecidableEq α] : DecidableEq (Except ε α) :=
  fun x y =>
    match x, y with
    | .ok a, .ok b =>
      if h : a = b then .isTrue (h ▸ rfl) else .isFalse (fun hc => h (Except.ok.inj hc))
    | .error a, .error b =>
      if h : a = b then .isTrue (h ▸ rfl) else .isFalse (fun hc => h (Except.error.inj hc))
    | .ok _, .error _ => .isFalse (fun hc => Except.noConfusion hc)
    | .error _, .ok _ => .isFalse (fun hc => Except.noConfusion hc)

/-- Normalisation of a (possibly negative) Python slice bound against a string
of length `len`: a non-negative bound is clamped to `len`, a negative bound
counts from the end and is clamped to `0`. -/
def pyIdx (len : Nat) (i : Int) : Nat :=
  if 0 ≤ i then min i.toNat len else (Int.ofNat len + i).toNat

/-- Python slice `s[i:]`. -/
def pySliceFrom (s : List Char) (i : Int) : List Char :=
  s.drop (pyIdx s.length i)

/-- Python slice `s[:i]`. -/
def pySliceTo (s : List Char) (i : Int) : List Char :=
  s.take (pyIdx s.length i)

/-- Python string repetition `n * ch` for a non-negative count. -/
def pyRepeat (ch : List Char) (n : Nat) : List Char :=
  List.flatten (List.replicate n ch)

/-- `Obfuscator.obfuscate(s, char, cutoff, from_end)` from `commonkit/utils.py`.
The `isinstance` checks of the source are enforced by the Lean types; the
remaining control flow is translated branch for branch.  The source computes
`index = -cutoff - 1` when `from_end` else `index = cutoff`, splits the string
with Python slices at `index`, and masks with `cutoff` copies of `char`. -/
def Obfuscator.obfuscate (s : List Char) (char : List Char) (cutoff : Int)
    (from_end : Bool) : Except PyErr (List Char) :=
  if cutoff = 0 then .ok s
  else if cutoff < 0 then
    .error (.valueError "must provide a positive cutoff, negative indices are not supported")
  else if (s.length : Int) ≤ cutoff then .ok (pyRepeat char s.length)
  else
    let index : Int := if from_end then -cutoff - 1 else cutoff
    let after_cutoff := pySliceFrom s index
    let before_cutoff := pySliceTo s index
    .ok (if from_end then before_cutoff ++ pyRepeat char cutoff.toNat
         else pyRepeat char cutoff.toNat ++ after_cutoff)

/-- Splitting a character list at every occurrence of `c`, modelling Python's
`str.split` with a single-character separator. -/
def splitOnChar (c : Char) (l : List Char) : List (List Char) :=
  l.foldr
    (fun x acc =>
      match acc with
      | seg :: rest => if x = c then [] :: seg :: rest else (x :: seg) :: rest
      | [] => [[x]])
    [[]]

/-- `Obfuscator.email(e, char, cutoff, from_end)` from `commonkit/utils.py`:
requires an `"@"` in the input, unpacks `e.split("@")` into exactly two parts
(`host, domain = e.split("@")` raises `ValueError` on more than one `"@"`),
obfuscates the host part and re-attaches the domain. -/
def Obfuscator.email (e : List Char) (char : List Char := ['*']) (cutoff : Int := 4)
    (from_end : Bool := true) : Except PyErr (List Char) :=
  if e.count '@' = 0 then
    .error (.valueError "email provided is not a valid email")
  else
    match splitOnChar '@' e with
    | [host, domain] =>
      (Obfuscator.obfuscate host char cutoff from_end).map
        (fun masked => masked ++ '@' :: domain)
    | _ => .error (.valueError "too many values to unpack (expected 2)")

/-- Construction-time configuration stored by `ObfuscatedFieldMixin.__init__`
(`kwargs.pop` defaults: `cutoff=4`, `from_end=True`, `char="*"`). -/
structure ObfuscatedFieldCfg where
  char : List Char := ['*']
  cutoff : Int := 4
  from_end : Bool := true

/-- `ObfuscatedCharField.to_representation`, i.e. the mixin implementation:
delegates to `Obfuscator.obfuscate` with the configured parameters. -/
def ObfuscatedCharField.to_representation (cfg : ObfuscatedFieldCfg)
    (value : List Char) : Except PyErr (List Char) :=
  Obfuscator.obfuscate value cfg.char cfg.cutoff cfg.from_end

/-- `ObfuscatedEmailField.to_representation`: overrides the mixin and calls
`self.obfuscator.email(value)` with no further arguments, so the library
defaults (`char="*"`, `cutoff=4`, `from_end=True`) always apply. -/
def ObfuscatedEmailField.to_representation (_cfg : ObfuscatedFieldCfg)
    (value : List Char) : Except PyErr (List Char) :=
  Obfuscator.email value

/-- Value stored by a Python enumeration member: in this library either a
string (`TextChoices`) or an integer (`IntegerChoices`). -/
inductive EnumValue where
  | str (s : String)
  | int (n : Int)
deriving DecidableEq, Repr

/-- One canonical (non-alias) member of a Python enumeration. -/
structure EnumMember where
  name : String
  value : EnumValue
deriving DecidableEq, Repr

/-- A Python enumeration as seen by `EnumSerializer`: its canonical members in
declaration order.  Python guarantees canonical members have pairwise distinct
names and pairwise distinct values (members repeating a value become aliases
and are excluded from iteration). -/
structure PyEnum where
  members : List EnumMember
deriving DecidableEq, Repr

/-- `EnumSerializer.get_display(member)`: the member's value when it is a
string, otherwise the member's name. -/
def EnumSerializer.get_display (member : EnumMember) : String :=
  match member.value with
  | .str s => s
  | .int _ => member.name

/-- `EnumSerializer.allowed_inputs`: the display forms of all members. -/
def EnumSerializer.allowed_inputs (enum : PyEnum) : List String :=
  enum.members.map EnumSerializer.get_display

/-- Python `", ".join(parts)`. -/
def joinComma : List String → String
  | [] => ""
  | [s] => s
  | s :: rest => s ++ ", " ++ joinComma rest

/-- Python `str(value)` for an enumeration's stored value as interpolated by
the f-string in `EnumSerializer.to_representation`. -/
def pyStrOfEnumValue : EnumValue → String
  | .str s => s
  | .int n => toString n

/-- `EnumSerializer.to_internal_value(data)`: `self.enum[data].value`, i.e.
lookup of `data` among member names; a `KeyError` is turned into a
`ValidationError` listing `self.allowed_inputs`. -/
def EnumSerializer.to_internal_value (enum : PyEnum) (data : String) :
    Except PyErr EnumValue :=
  match enum.members.find? (fun m => decide (m.name = data)) with
  | some m => .ok m.value
  | none =>
    .error (.validationError
      (.text ("non-existent key passed to EnumSerializer, available keys are ["
        ++ joinComma (EnumSerializer.allowed_inputs enum) ++ "]"))
      Option.none)

/-- `EnumSerializer.to_representation(code)`: linear scan over the members for
the first whose value equals `code`, returning its display form; no match
raises a `ValidationError` naming the code.  (The source interpolates
`self.enum.__class__.__name__`, which for an enumeration class is the name of
its metaclass, `EnumMeta`.) -/
def EnumSerializer.to_representation (enum : PyEnum) (code : EnumValue) :
    Except PyErr String :=
  match enum.members.find? (fun m => decide (m.value = code)) with
  | some m => .ok (EnumSerializer.get_display m)
  | none =>
    .error (.validationError
      (.text ("code=" ++ pyStrOfEnumValue code
        ++ " has no corresponding value in enum EnumMeta"))
      Option.none)

/-- A JSON-like Python payload handed to the renderer.  `pyNone` models Python
`None`; dictionaries, lists and strings are `Iterable`, integers and `None`
are not. -/
inductive PyData where
  | mapping (entries : List (String × PyData))
  | list (items : List PyData)
  | str (s : String)
  | int (n : Int)
  | pyNone

/-- Python `isinstance(data, Mapping)` for the payload model. -/
def PyData.isMapping : PyData → Bool
  | .mapping _ => true
  | _ => false

/-- Python `isinstance(data, Iterable)` for the payload model: dictionaries,
lists and strings are iterable, integers and `None` are not. -/
def PyData.isIterable : PyData → Bool
  | .mapping _ => true
  | .list _ => true
  | .str _ => true
  | _ => false

/-- The response bound into the renderer context. -/
structure Response where
  status_code : Int
deriving DecidableEq, Repr

/-- The `renderer_context` dictionary: it may be absent (`None`) and it may or
may not contain a `"response"` entry. -/
structure RendererContext where
  response : Option Response
deriving DecidableEq, Repr

/-- `JSONRenderer.render_errors` from `commonkit/rest_framework/renderers.py`:
starts from `field_errors = {}` and `non_field_errors = []`, moves a `Mapping`
payload into `field_errors`, any other `Iterable` payload into
`non_field_errors`, and returns the two-key dictionary. -/
def JSONRenderer.render_errors (data : PyData) : PyData :=
  let field_errors : PyData := if data.isMapping then data else .mapping []
  let non_field_errors : PyData :=
    if data.isMapping then .list []
    else if data.isIterable then data
    else .list []
  .mapping [("field_errors", field_errors), ("non_field_errors", non_field_errors)]

/-- `JSONRenderer.render`: when the renderer context is present and carries a
response, payloads of responses with status code at least 400 are reshaped by
`render_errors` and all others pass through `render_success` unchanged; the
result is what gets handed to the base JSON renderer.  JSON encoding itself is
the framework's job and is not modelled. -/
def JSONRenderer.render (data : PyData) (renderer_context : Option RendererContext) :
    PyData :=
  match renderer_context with
  | some ctx =>
    match ctx.response with
    | some response =>
      if response.status_code ≥ 400 then JSONRenderer.render_errors data else data
    | none => data
  | none => data

/-- An HTTP request as visible to `IOSerializer.get_fields`. -/
structure Request where
  method : String
deriving DecidableEq, Repr

/-- The serializer context: it may or may not carry a `"request"` entry. -/
structure SerializerContext where
  request : Option Request
deriving DecidableEq, Repr

/-- One side (input or output) of an `IOSerializer`, modelling what
`get_fields` inspects about it.  A DRF serializer or field INSTANCE satisfies
`isinstance(x, serializers.Field)` (DRF serializers subclass `Field`), in which
case `get_fields` builds the one-entry dictionary `{x.field_name: x}`; a CLASS
does not, in which case the source instantiates it and calls `get_fields()` on
the fresh instance, modelled by `classFields`.  `ownFields` is what
`x.get_fields()` returns when called directly on `x` (`Option.none` models a
plain field instance without a `get_fields` attribute, where Python raises
`AttributeError`).  `tiv`/`trp` model `x.to_internal_value`/
`x.to_representation`; `selfId` identifies the object itself when it is placed
into a field dictionary. -/
structure SerSide where
  isFieldInstance : Bool
  field_name : String
  selfId : Nat
  ownFields : Option (List (String × Nat))
  classFields : List (String × Nat)
  tiv : String → String
  trp : String → String

/-- `IOSerializer(input_serializer, output_serializer)`. -/
structure IOSerializer where
  input_serializer : SerSide
  output_serializer : SerSide

/-- `IOSerializer.to_representation`: always delegates to the output
serializer. -/
def IOSerializer.to_representation (io : IOSerializer) (instance_ : String) : String :=
  io.output_serializer.trp instance_

/-- `IOSerializer.to_internal_value`: always delegates to the input
serializer. -/
def IOSerializer.to_internal_value (io : IOSerializer) (data : String) : String :=
  io.input_serializer.tiv data

/-- The field dictionary `get_fields` resolves for one chosen side: the
one-entry dictionary for a field instance, otherwise the fields of a freshly
constructed instance of the class. -/
def SerSide.resolvedFields (s : SerSide) : List (String × Nat) :=
  if s.isFieldInstance then [(s.field_name, s.selfId)] else s.classFields

/-- `IOSerializer.get_fields` from `commonkit/rest_framework/serializers.py`:
without a request in context, return `self.output_serializer.get_fields()`;
with a request whose method is POST/PUT/PATCH, resolve the input side;
otherwise resolve the output side. -/
def IOSerializer.get_fields (io : IOSerializer) (ctx : SerializerContext) :
    Except PyErr (List (String × Nat)) :=
  match ctx.request with
  | none =>
    match io.output_serializer.ownFields with
    | some fs => .ok fs
    | none => .error (.attributeError "get_fields")
  | some request =>
    if request.method ∈ ["POST", "PUT", "PATCH"] then
      if io.input_serializer.isFieldInstance then
        .ok [(io.input_serializer.field_name, io.input_serializer.selfId)]
      else .ok io.input_serializer.classFields
    else if io.output_serializer.isFieldInstance then
      .ok [(io.output_serializer.field_name, io.output_serializer.selfId)]
    else .ok io.output_serializer.classFields

/-- Index of the last occurrence of `c` in `cs` (Python `str.rfind`), if any. -/
def rfindIdx (cs : List Char) (c : Char) : Option Nat :=
  match cs.reverse.findIdx? (fun x => decide (x = c)) with
  | some j => some (cs.length - 1 - j)
  | none => none

/-- `PurePath(p).name`: the final path component. -/
def pathName (p : String) : String :=
  match rfindIdx p.data '/' with
  | some i => String.mk (p.data.drop (i + 1))
  | none => p

/-- `PurePath(p).suffix`: the substring of the final component from its last
dot, provided that dot is neither the first nor the last character. -/
def pathSuffix (p : String) : String :=
  let name := (pathName p).data
  match rfindIdx name '.' with
  | some i => if 0 < i ∧ i + 1 < name.length then String.mk (name.drop i) else ""
  | none => ""

/-- Python `s.removeprefix(".")`. -/
def removeDotPrefix (s : String) : String :=
  match s.data with
  | c :: rest => if c = '.' then String.mk rest else s
  | [] => s

/-- The upload format computed by `TableUploadField.get_format_handler`:
`Path(file_name).suffix.removeprefix(".")`. -/
def uploadFormat (file_name : String) : String :=
  removeDotPrefix (pathSuffix file_name)

/-- Keyword arguments as passed to a format handler (values kept opaque as
strings). -/
abbrev Kwargs := List (String × String)

/-- A registered format handler: its Python identity (`id`), whether it is
callable, and its behaviour when invoked with the underlying file and keyword
arguments (an `error` result models the handler raising an exception with the
given message). -/
structure FormatHandler (Table : Type) where
  id : Nat
  callable : Bool
  run : String → Kwargs → Except String Table

/-- An uploaded file from a Django request: its `name` and its underlying
`file` object (kept opaque as a string). -/
structure UploadedFile where
  name : String
  file : String
deriving DecidableEq, Repr

/-- `TableUploadField.get_format_handler(file)`: compute the upload format
from the filename; when the format is unregistered AND no `"*"` entry exists,
raise a `ValidationError`; otherwise index `handlers[upload_format]` directly
(so a registered wildcard is never actually consulted: an unregistered format
with a wildcard present escapes the guard and the dictionary access raises
`KeyError`); a registered non-callable handler raises a `ValidationError`. -/
def TableUploadField.get_format_handler {Table : Type}
    (handlers : List (String × FormatHandler Table)) (file : UploadedFile) :
    Except PyErr (FormatHandler Table) :=
  let upload_format := uploadFormat file.name
  let keys := handlers.map (fun p => p.1)
  if ¬ upload_format ∈ keys ∧ ¬ "*" ∈ keys then
    .error (.validationError
      (.text ("a handler for format=" ++ upload_format ++ " was not defined"))
      Option.none)
  else
    match handlers.lookup upload_format with
    | none => .error (.keyError upload_format)
    | some handler =>
      if ¬ handler.callable then
        .error (.validationError
          (.text ("handler defined for " ++ upload_format ++ " is not callable"))
          Option.none)
      else .ok handler

/-- A key of the `handler_kwargs` dictionary: Python allows both extension
strings and handler function objects as dictionary keys. -/
inductive KwKey where
  | fmt (s : String)
  | handlerRef (id : Nat)
deriving DecidableEq, Repr

/-- The construction-time state of a `TableUploadField` needed by the upload
path: the handler registry and the `handler_kwargs` mapping. -/
structure TableFieldCfg (Table : Type) where
  handlers : List (String × FormatHandler Table)
  handler_kwargs : List (KwKey × Kwargs)

/-- `TableUploadField.get_handler_kwargs(handler_or_format)`:
`self.handler_kwargs.get(key, {})`. -/
def TableUploadField.get_handler_kwargs {Table : Type} (cfg : TableFieldCfg Table)
    (key : KwKey) : Kwargs :=
  match cfg.handler_kwargs.find? (fun p => decide (p.1 = key)) with
  | some p => p.2
  | none => []

/-- The opening brace character of a Python format placeholder. -/
def braceOpen : Char := Char.ofNat 123

/-- The closing brace character of a Python format placeholder. -/
def braceClose : Char := Char.ofNat 125

/-- State of the `str.format` scanner. -/
structure FmtState where
  out : List Char
  nameAcc : List Char
  inBrace : Bool

/-- One step of the `str.format` scanner: outside a placeholder, an opening
brace starts one and any other character is copied; inside a placeholder, a
closing brace substitutes the looked-up keyword argument and any other
character extends the placeholder name. -/
def pyFormatStep (kwargs : List (String × String)) (st : FmtState) (c : Char) :
    FmtState :=
  if st.inBrace then
    if c = braceClose then
      let value :=
        match kwargs.lookup (String.mk st.nameAcc.reverse) with
        | some v => v.data
        | none => []
      { out := st.out ++ value, nameAcc := [], inBrace := false }
    else { out := st.out, nameAcc := c :: st.nameAcc, inBrace := st.inBrace }
  else if c = braceOpen then { out := st.out, nameAcc := [], inBrace := true }
  else { out := st.out ++ [c], nameAcc := st.nameAcc, inBrace := st.inBrace }

/-- Python `template.format(**kwargs)` restricted to the plain `{name}`
placeholders used by this library's error-message templates (no escaping or
format specs occur in them; a missing keyword, which would raise `KeyError` in
Python, never occurs for the templates and calls in this repository and is
rendered empty here). -/
def pyFormat (template : String) (kwargs : List (String × String)) : String :=
  String.mk (template.data.foldl (pyFormatStep kwargs) ⟨[], [], false⟩).out

/-- `TableUploadField.default_error_messages` (the entries this class adds; the
base `FileField` messages are the framework's and are not involved in the
claims). -/
def TableUploadField.default_error_messages : List (String × String) :=
  [("row", "row {row} is invalid: {message}"),
   ("invalid_format", "received an unexpected format={format}"),
   ("format_handler", "the format handler raised an error")]

/-- `TableUploadField.fail(key, **kwargs)`: the `"row"` key is intercepted and
raises the structured `TABLE_ROW_ERROR` validation error; any other key goes
through DRF `Field.fail`, which renders `self.error_messages[key].format(**kwargs)`
and raises a `ValidationError` with that string and `code=key`. -/
def TableUploadField.fail (key : String) (kwargs : List (String × String)) : PyErr :=
  if key = "row" then
    let row := (kwargs.lookup "row").getD ""
    let message := (kwargs.lookup "message").getD ""
    .validationError (.tableRowError message "Error in row" row) (some "TABLE_ROW_ERROR")
  else
    match TableUploadField.default_error_messages.lookup key with
    | some template => .validationError (.text (pyFormat template kwargs)) (some key)
    | none => .attributeError key

/-- `TableUploadField.call_format_handler(data)`: resolve the handler, look its
keyword arguments up in `handler_kwargs` USING THE HANDLER OBJECT as the key
(the source passes `format_handler`, not `upload_format`, to
`get_handler_kwargs`), invoke it on the underlying file, and convert any
exception into `self.fail("format_handler", message=str(e))`. -/
def TableUploadField.call_format_handler {Table : Type} (cfg : TableFieldCfg Table)
    (data : UploadedFile) : Except PyErr Table :=
  match TableUploadField.get_format_handler cfg.handlers data with
  | .error e => .error e
  | .ok format_handler =>
    let handler_kwargs :=
      TableUploadField.get_handler_kwargs cfg (KwKey.handlerRef format_handler.id)
    match format_handler.run data.file handler_kwargs with
    | .ok table => .ok table
    | .error e => .error (TableUploadField.fail "format_handler" [("message", e)])

/-- A row validator as called by `process_table`: receives the row, its index
and the whole current table; an `error` result models it raising a
`ValidationError` with the given detail; an `ok none` result means "validate
only, keep the row"; an `ok (some r)` result replaces the row. -/
abbrev RowValidator (Row : Type) := Row → Nat → List Row → Except VDetail (Option Row)

/-- The loop body of `TableUploadField.process_table`, iterating the table
from row index `i` with explicit fuel (`fuel = length - i` at every call):
read row `i` of the current table, invoke the validator, overwrite the row in
place when a replacement is returned, and on a `ValidationError` re-raise it
wrapped as `{"field_errors": detail, "row": i}`, aborting the remaining
rows. -/
def TableUploadField.processFrom {Row : Type} (validator : RowValidator Row) :
    Nat → List Row → Nat → Except PyErr (List Row)
  | 0, table, _ => .ok table
  | fuel + 1, table, i =>
    match table[i]? with
    | none => .ok table
    | some row =>
      match validator row i table with
      | .error detail => .error (.validationError (.wrappedRow detail i) Option.none)
      | .ok none => TableUploadField.processFrom validator fuel table (i + 1)
      | .ok (some new_row) =>
        TableUploadField.processFrom validator fuel (table.set i new_row) (i + 1)

/-- `TableUploadField.process_table(table_object)`: when a row validator is
configured, run the row loop over the whole table; otherwise return the table
unchanged. -/
def TableUploadField.process_table {Row : Type}
    (row_validator : Option (RowValidator Row)) (table : List Row) :
    Except PyErr (List Row) :=
  match row_validator with
  | none => .ok table
  | some validator => TableUploadField.processFrom validator table.length table 0

/-- A permission class, identified by its Python identity. -/
abbrev PermClass := Nat

/-- An instantiated permission (`perm()` in the source). -/
structure PermInstance where
  cls : PermClass
deriving DecidableEq, Repr

/-- `djkit.rest_framework.viewsets.GenericViewSet`: the six per-action
permission attributes (defaulting to `[]`), the base `permission_classes`
fallback, the current `action`, and any further convention-named
`permission_classes_<action>` attributes a subclass defines for custom actions
(present on the object, but — mirroring the source — never consulted by
`get_permissions`). -/
structure DjkitGenericViewSet where
  permission_classes_retrieve : List PermClass := []
  permission_classes_list : List PermClass := []
  permission_classes_create : List PermClass := []
  permission_classes_update : List PermClass := []
  permission_classes_destroy : List PermClass := []
  permission_classes : List PermClass := []
  custom_permission_attrs : List (String × List PermClass) := []
  action : String

/-- `GenericViewSet.get_action_perms_map` (djkit). -/
def DjkitGenericViewSet.get_action_perms_map (vs : DjkitGenericViewSet) :
    List (String × List PermClass) :=
  [("create", vs.permission_classes_create),
   ("update", vs.permission_classes_update),
   ("partial_update", vs.permission_classes_update),
   ("destroy", vs.permission_classes_destroy),
   ("retrieve", vs.permission_classes_retrieve),
   ("list", vs.permission_classes_list)]

/-- `GenericViewSet.get_permissions` (djkit): look the action up in the
per-action map and otherwise fall back directly to `self.permission_classes`;
the convention-named `permission_classes_<action>` attribute promised by the
method's docstring is never read.  Each resolved entry is instantiated. -/
def DjkitGenericViewSet.get_permissions (vs : DjkitGenericViewSet) :
    List PermInstance :=
  let action_perms_map := vs.get_action_perms_map
  let action_perms :=
    match action_perms_map.lookup vs.action with
    | some perms => perms
    | none => vs.permission_classes
  action_perms.map (fun c => { cls := c })

/-- `drf_common.viewsets.CommonViewSet`: per-action attributes default to
`None` (modelled as `Option.none`); custom `permission_classes_<action>`
attributes of subclasses live in `custom_permission_attrs`. -/
structure CommonViewSet where
  permission_classes_retrieve : Option (List PermClass) := none
  permission_classes_list : Option (List PermClass) := none
  permission_classes_create : Option (List PermClass) := none
  permission_classes_update : Option (List PermClass) := none
  permission_classes_destroy : Option (List PermClass) := none
  custom_permission_attrs : List (String × Option (List PermClass)) := []
  action : String

/-- Python `getattr(self, "permission_classes_" + action, None)` on a
`CommonViewSet`: the five declared attributes are found by name, any other
name is looked up among the subclass's own attributes. -/
def CommonViewSet.pyGetattrPerms (vs : CommonViewSet) (name : String) :
    Option (List PermClass) :=
  if name = "permission_classes_retrieve" then vs.permission_classes_retrieve
  else if name = "permission_classes_list" then vs.permission_classes_list
  else if name = "permission_classes_create" then vs.permission_classes_create
  else if name = "permission_classes_update" then vs.permission_classes_update
  else if name = "permission_classes_destroy" then vs.permission_classes_destroy
  else (vs.custom_permission_attrs.lookup name).join

/-- `CommonViewSet.get_action_perms_map` (drf_common). -/
def CommonViewSet.get_action_perms_map (vs : CommonViewSet) :
    List (String × Option (List PermClass)) :=
  [("create", vs.permission_classes_create),
   ("update", vs.permission_classes_update),
   ("partial_update", vs.permission_classes_update),
   ("destroy", vs.permission_classes_destroy),
   ("retrieve", vs.permission_classes_retrieve),
   ("list", vs.permission_classes_list)]

/-- Python truthiness of an optional permission list (`None` and `[]` are
falsy). -/
def permListTruthy : Option (List PermClass) → Bool
  | none => false
  | some l => !l.isEmpty

/-- `CommonViewSet.get_permissions` (drf_common): look the action up in the
per-action map (a hit whose stored value is `None` flows into the list
comprehension, where iterating `None` raises `TypeError`); otherwise use the
convention-named attribute when it is truthy; otherwise use `[]`. -/
def CommonViewSet.get_permissions (vs : CommonViewSet) :
    Except PyErr (List PermInstance) :=
  let action_perms_map := vs.get_action_perms_map
  let action_perms_on_klass := vs.pyGetattrPerms ("permission_classes_" ++ vs.action)
  let action_perms : Option (List PermClass) :=
    match action_perms_map.lookup vs.action with
    | some stored => stored
    | none => if permListTruthy action_perms_on_klass then action_perms_on_klass else some []
  match action_perms with
  | some perms => .ok (perms.map (fun c => { cls := c }))
  | none => .error (.typeError "NoneType object is not iterable")

/-- A registered, callable handler used in concrete checks. -/
def exHandlerOk : FormatHandler Nat :=
  { id := 0, callable := true, run := fun _ _ => .ok 42 }

/-- A registered but non-callable handler (e.g. a plain value placed in the
registry). -/
def exHandlerNotCallable : FormatHandler Nat :=
  { id := 1, callable := false, run := fun _ _ => .ok 0 }

/-- A callable handler that raises `Exception("boom")` when invoked. -/
def exHandlerBoom : FormatHandler Nat :=
  { id := 5, callable := true, run := fun _ _ => .error "boom" }

/-- A `TableUploadField` configured with a csv handler and per-extension
keyword arguments, as the documentation and tests of the library configure
them. -/
def exTableFieldCfg : TableFieldCfg Nat :=
  { handlers := [("csv", exHandlerBoom)],
    handler_kwargs := [(KwKey.fmt "csv", [("sep", ";")])] }

/-- A row validator that raises a `ValidationError` with detail `"bad"` on row
index 3 and accepts (without replacing) every other row. -/
def exRowValidator : RowValidator Nat :=
  fun _ i _ => if i = 3 then .error (.text "bad") else .ok none

/-- The `Human.MilitaryStatus` text-choices enumeration from the example app. -/
def militaryStatusEnum : PyEnum :=
  { members := [{ name := "EXEMPTED", value := .str "exempted" },
                { name := "SERVED", value := .str "served" },
                { name := "POSTPONED", value := .str "postponed" }] }

/-- A one-member enumeration whose member name differs from its string value. -/
def tinyEnum : PyEnum :=
  { members := [{ name := "A", value := .str "x" }] }

/-- An input side for `IOSerializer`: a DRF field instance (e.g.
`PrimaryKeyRelatedField()`), which is an instance of `serializers.Field` and
has no `get_fields` attribute of its own. -/
def exInputSide : SerSide :=
  { isFieldInstance := true, field_name := "user", selfId := 1,
    ownFields := none, classFields := [], tiv := id, trp := id }

/-- An output side for `IOSerializer`: a serializer instance (e.g.
`UserSerializer()`), also an instance of `serializers.Field`, whose own
`get_fields()` returns its declared fields. -/
def exOutputSide : SerSide :=
  { isFieldInstance := true, field_name := "user", selfId := 2,
    ownFields := some [("id", 10), ("name", 11)], classFields := [],
    tiv := id, trp := id }

/-- The `IOSerializer` of the docstring example. -/
def exIOSerializer : IOSerializer :=
  { input_serializer := exInputSide, output_serializer := exOutputSide }

/-- A djkit view set subclass with a custom action `eat`, a convention-named
`permission_classes_eat` attribute carrying one permission class (id 7), and
an empty base `permission_classes`. -/
def exDjkitViewSet : DjkitGenericViewSet :=
  { action := "eat",
    custom_permission_attrs := [("permission_classes_eat", [7])] }

/-- A djkit view set exercising the per-action map on a standard action. -/
def exDjkitViewSetCreate : DjkitGenericViewSet :=
  { action := "create", permission_classes_create := [3],
    permission_classes := [9] }

/-- The drf_common counterpart of `exDjkitViewSet`. -/
def exCommonViewSet : CommonViewSet :=
  { action := "eat",
    custom_permission_attrs := [("permission_classes_eat", some [7])] }

/-- If a predicate key is injectively distributed (the mapped keys are
`Nodup`), `find?` on the key of a member returns that member. -/
theorem find_first_of_nodup {α β : Type _} [DecidableEq β] (key : α → β) :
    ∀ (l : List α), (l.map key).Nodup → ∀ a ∈ l,
      l.find? (fun x => decide (key x = key a)) = some a := by
  intro l
  induction l with
  | nil => intro _ a ha; cases ha
  | cons b t ih =>
    intro hnd a ha
    rw [List.map_cons, List.nodup_cons] at hnd
    rcases List.mem_cons.mp ha with rfl | hat
    · exact List.find?_cons_of_pos _ (by simp)
    · have hne : key b ≠ key a := fun he => hnd.1 (he ▸ List.mem_map_of_mem key hat)
      rw [List.find?_cons_of_neg _ (by simp [hne])]
      exact ih hnd.2 a hat

/-- Fail-fast behaviour of the row loop: if the validator succeeds on every
index below `k` and fails with detail `d` on index `k`, the loop raises the
wrapped error tagged with row `k`. -/
theorem processFrom_failfast {Row : Type} (v : RowValidator Row) (k : Nat) (d : VDetail)
    (hsucc : ∀ j r t, j < k → ∃ o, v r j t = .ok o)
    (herr : ∀ r t, v r k t = .error d) :
    ∀ (fuel : Nat) (table : List Row) (i : Nat),
      table.length = i + fuel → i ≤ k → k < table.length →
      TableUploadField.processFrom v fuel table i =
        .error (.validationError (.wrappedRow d k) Option.none) := by
  intro fuel
  induction fuel with
  | zero => intro table i hlen hik hk; exact absurd hk (by omega)
  | succ fuel ih =>
    intro table i hlen hik hk
    have hi : i < table.length := by omega
    by_cases hik2 : i = k
    · subst hik2
      simp only [TableUploadField.processFrom, List.getElem?_eq_getElem hi, herr]
    · have hik3 : i < k := by omega
      obtain ⟨o, ho⟩ := hsucc i (table[i]) table hik3
      cases o with
      | none =>
        simp only [TableUploadField.processFrom, List.getElem?_eq_getElem hi, ho]
        exact ih table (i + 1) (by omega) (by omega) hk
      | some nr =>
        simp only [TableUploadField.processFrom, List.getElem?_eq_getElem hi, ho]
        exact ih (table.set i nr) (i + 1) (by simp; omega) (by omega) (by simp; omega)

/-- When the validator always returns a replacement computed from the row and
its index, the loop rewrites every row at index at least `i` in place. -/
theorem processFrom_replace {Row : Type} (v : RowValidator Row) (f : Row → Nat → Row)
    (hv : ∀ r i t, v r i t = .ok (some (f r i))) :
    ∀ (fuel : Nat) (table : List Row) (i : Nat), table.length = i + fuel →
      ∃ out, TableUploadField.processFrom v fuel table i = .ok out ∧
        out.length = table.length ∧
        (∀ j, j < i → out[j]? = table[j]?) ∧
        (∀ j, i ≤ j → out[j]? = (table[j]?).map (fun r => f r j)) := by
  intro fuel
  induction fuel with
  | zero =>
    intro table i hlen
    refine ⟨table, by simp [TableUploadField.processFrom], rfl, fun j _ => rfl, fun j hj => ?_⟩
    have hnone : table[j]? = none := List.getElem?_eq_none (by omega)
    simp [hnone]
  | succ fuel ih =>
    intro table i hlen
    have hi : i < table.length := by omega
    obtain ⟨out, hrun, hlen2, hlt, hge⟩ :=
      ih (table.set i (f (table[i]) i)) (i + 1) (by simp; omega)
    refine ⟨out, ?_, by simpa using hlen2, ?_, ?_⟩
    · simp only [TableUploadField.processFrom, List.getElem?_eq_getElem hi, hv]
      exact hrun
    · intro j hj
      rw [hlt j (by omega)]
      exact List.getElem?_set_ne (by omega)
    · intro j hj
      rcases Nat.eq_or_lt_of_le hj with rfl | hji
      · rw [hlt i (by omega), List.getElem?_set_self hi, List.getElem?_eq_getElem hi]
        rfl
      · rw [hge j (by omega), List.getElem?_set_ne (by omega)]

/-- When the validator always returns `None`, the loop leaves the table
untouched. -/
theorem processFrom_keep {Row : Type} (v : RowValidator Row)
    (hv : ∀ r i t, v r i t = .ok none) :
    ∀ (fuel : Nat) (table : List Row) (i : Nat),
      TableUploadField.processFrom v fuel table i = .ok table := by
  intro fuel
  induction fuel with
  | zero => intro table i; rfl
  | succ fuel ih =>
    intro table i
    cases hgi : table[i]? with
    | none => simp only [TableUploadField.processFrom, hgi]
    | some row =>
      simp only [TableUploadField.processFrom, hgi, hv]
      exact ih table (i + 1)

/-- C1: the claim states that for `0 ≤ cutoff < len(s)` and both `from_end`
values, `Obfuscator.obfuscate` preserves the string's length, replaces exactly
the first/last `cutoff` characters and keeps the remaining slice.  The code
violates this for `from_end = true`: at `s = "abcdef"`, `char = "*"`,
`cutoff = 2` it returns `"abc**"` — one character shorter than the input,
with `s[3] = 'd'` dropped instead of preserved — while the symmetric
`from_end = false` branch behaves as claimed. -/
theorem obfuscate_from_end_drops_a_character :
    Obfuscator.obfuscate "abcdef".data "*".data 2 true = .ok "abc**".data ∧
    "abc**".data.length = 5 ∧
    "abcdef".data.length = 6 ∧
    Obfuscator.obfuscate "abcdef".data "*".data 2 false = .ok "**cdef".data :=
  ⟨by decide, by decide, by decide, by decide⟩

/-- C2: the claim states that a registered `"*"` handler is invoked as a
fallback for unregistered extensions.  In the code the wildcard only disables
the explicit validation error: the subsequent direct dictionary access
`handlers[upload_format]` raises `KeyError` and the (callable) wildcard
handler is never consulted.  The other two parts of the claim hold: with no
wildcard an unregistered extension raises the validation error, and a
registered non-callable handler raises the validation error. -/
theorem get_format_handler_wildcard_eval :
    TableUploadField.get_format_handler [("*", exHandlerOk)]
        { name := "report.txt", file := "blob" } = .error (.keyError "txt") ∧
    exHandlerOk.callable = true ∧
    TableUploadField.get_format_handler [("csv", exHandlerOk)]
        { name := "report.txt", file := "blob" } =
      .error (.validationError (.text "a handler for format=txt was not defined")
        Option.none) ∧
    TableUploadField.get_format_handler [("txt", exHandlerNotCallable)]
        { name := "report.txt", file := "blob" } =
      .error (.validationError (.text "handler defined for txt is not callable")
        Option.none) :=
  ⟨rfl, rfl, rfl, rfl⟩

/-- C3: `process_table` iterates rows in index order invoking the validator
with `(row, index, table)`; a non-null return value overwrites that row in
place; a validation error at row index `k` is re-raised wrapped with `row = k`
and no later row is processed (the validator's behaviour on indices above `k`
is unconstrained by the hypotheses); an always-`None` validator leaves the
table unchanged. -/
theorem process_table_row_validation {Row : Type} (v : RowValidator Row)
    (table : List Row) (k : Nat) (d : VDetail) (f : Row → Nat → Row) :
    (k < table.length →
      (∀ j r t, j < k → ∃ o, v r j t = .ok o) →
      (∀ r t, v r k t = .error d) →
      TableUploadField.process_table (some v) table =
        .error (.validationError (.wrappedRow d k) Option.none)) ∧
    ((∀ r i t, v r i t = .ok (some (f r i))) →
      ∃ out, TableUploadField.process_table (some v) table = .ok out ∧
        out.length = table.length ∧
        ∀ j, out[j]? = (table[j]?).map (fun r => f r j)) ∧
    ((∀ r i t, v r i t = .ok none) →
      TableUploadField.process_table (some v) table = .ok table) := by
  refine ⟨fun hk hsucc herr => ?_, fun hv => ?_, fun hv => ?_⟩
  · exact processFrom_failfast v k d hsucc herr table.length table 0 (by omega)
      (by omega) hk
  · obtain ⟨out, hrun, hlen, _, hge⟩ :=
      processFrom_replace v f hv table.length table 0 (by omega)
    exact ⟨out, hrun, hlen, fun j => hge j (Nat.zero_le j)⟩
  · exact processFrom_keep v hv table.length table 0

/-- Witness for C3: a validator failing on row index 3 of a 10-row table
surfaces the wrapped error tagged `row = 3`. -/
theorem process_table_row_validation_witness :
    TableUploadField.process_table (some exRowValidator) (List.range 10) =
      .error (.validationError (.wrappedRow (.text "bad") 3) Option.none) :=
  (process_table_row_validation exRowValidator (List.range 10) 3 (.text "bad")
      (fun r _ => r)).1
    (by decide)
    (fun j r t hj => ⟨none, by unfold exRowValidator; rw [if_neg (by omega)]⟩)
    (fun r t => by unfold exRowValidator; rw [if_pos rfl])

/-- C4: the claim states the handler receives the keyword arguments configured
for its extension and that the resulting validation error's rendered detail
carries the original exception message.  The code looks the keyword arguments
up under the handler OBJECT (so per-extension configuration is silently
dropped), and renders the `"format_handler"` template, which contains no
placeholder, so `message=str(e)` is discarded: the detail is the fixed string
`"the format handler raised an error"` without `"boom"`. -/
theorem call_format_handler_eval :
    TableUploadField.call_format_handler exTableFieldCfg
        { name := "a.csv", file := "filedata" } =
      .error (.validationError (.text "the format handler raised an error")
        (some "format_handler")) ∧
    TableUploadField.get_handler_kwargs exTableFieldCfg
        (KwKey.handlerRef exHandlerBoom.id) = [] ∧
    exTableFieldCfg.handler_kwargs = [(KwKey.fmt "csv", [("sep", ";")])] ∧
    pyFormat "the format handler raised an error" [("message", "boom")] =
      "the format handler raised an error" :=
  ⟨rfl, rfl, rfl, rfl⟩

/-- C5: for a bound response with status code at least 400 the payload is
reshaped — a mapping becomes `field_errors` with empty `non_field_errors`, any
other iterable becomes `non_field_errors` with empty `field_errors` — and for
a status code below 400 the payload passes through unchanged. -/
theorem json_renderer_reshape (data : PyData) (resp : Response) :
    (400 ≤ resp.status_code → data.isMapping = true →
      JSONRenderer.render data (some { response := some resp }) =
        .mapping [("field_errors", data), ("non_field_errors", .list [])]) ∧
    (400 ≤ resp.status_code → data.isMapping = false → data.isIterable = true →
      JSONRenderer.render data (some { response := some resp }) =
        .mapping [("field_errors", .mapping []), ("non_field_errors", data)]) ∧
    (resp.status_code < 400 →
      JSONRenderer.render data (some { response := some resp }) = data) := by
  refine ⟨fun hs hm => ?_, fun hs hm hi => ?_, fun hs => ?_⟩
  · simp [JSONRenderer.render, JSONRenderer.render_errors, ge_iff_le, hs, hm]
  · simp [JSONRenderer.render, JSONRenderer.render_errors, ge_iff_le, hs, hm, hi]
  · have hns : ¬ (400 : Int) ≤ resp.status_code := by omega
    simp [JSONRenderer.render, ge_iff_le, hns]

/-- Witness for C5: status 422 with `{"name": ["required"]}` renders to the
reshaped error payload, and status 200 with `{"key": "value"}` renders
unchanged. -/
theorem json_renderer_reshape_witness :
    JSONRenderer.render (.mapping [("name", .list [.str "required"])])
        (some { response := some { status_code := 422 } }) =
      .mapping [("field_errors", .mapping [("name", .list [.str "required"])]),
        ("non_field_errors", .list [])] ∧
    JSONRenderer.render (.mapping [("key", .str "value")])
        (some { response := some { status_code := 200 } }) =
      .mapping [("key", .str "value")] :=
  ⟨(json_renderer_reshape _ _).1 (by decide) rfl,
   (json_renderer_reshape _ _).2.2 (by decide)⟩

/-- C6: for every enumeration (canonical members, hence pairwise distinct
names and values) and every member,
`to_representation (to_internal_value member.name)` returns the member's
canonical display form: its value when that value is a string, otherwise its
name. -/
theorem enum_serializer_round_trip (enum : PyEnum) (m : EnumMember)
    (hnames : (enum.members.map EnumMember.name).Nodup)
    (hvalues : (enum.members.map EnumMember.value).Nodup)
    (hm : m ∈ enum.members) :
    (EnumSerializer.to_internal_value enum m.name).bind
      (EnumSerializer.to_representation enum) =
      .ok (EnumSerializer.get_display m) := by
  have h1 := find_first_of_nodup EnumMember.name enum.members hnames m hm
  have h2 := find_first_of_nodup EnumMember.value enum.members hvalues m hm
  simp [EnumSerializer.to_internal_value, EnumSerializer.to_representation,
    h1, h2, Except.bind]

/-- Witness for C6: the `MilitaryStatus` enumeration round-trips `"EXEMPTED"`
to its display form `"exempted"`. -/
theorem enum_serializer_round_trip_witness :
    (EnumSerializer.to_internal_value militaryStatusEnum "EXEMPTED").bind
      (EnumSerializer.to_representation militaryStatusEnum) = .ok "exempted" :=
  enum_serializer_round_trip militaryStatusEnum
    { name := "EXEMPTED", value := .str "exempted" } (by decide) (by decide) (by decide)

/-- Counterexample for C7: the claim says the unknown-label error lists "the
labels accepted as input".  For the one-member enumeration with name `"A"` and
string value `"x"`, the label `"A"` is accepted while `"x"` is rejected, yet
the error's listed labels are exactly `["x"]` — the display forms, not the
accepted member names. -/
theorem enum_allowed_labels_counterexample :
    EnumSerializer.to_internal_value tinyEnum "A" = .ok (.str "x") ∧
    EnumSerializer.to_internal_value tinyEnum "x" =
      .error (.validationError
        (.text "non-existent key passed to EnumSerializer, available keys are [x]")
        Option.none) ∧
    EnumSerializer.allowed_inputs tinyEnum = ["x"] ∧
    ¬ "A" ∈ EnumSerializer.allowed_inputs tinyEnum :=
  ⟨rfl, rfl, rfl, by decide⟩

/-- C7 (amended): an unknown label raises a validation error listing the
display forms of all members (member value when it is a string, otherwise the
member name — these coincide with the accepted input labels only when every
display form equals its member's name), and an unmatched code raises a
validation error naming the offending code. -/
theorem enum_unknown_label_code_errors (enum : PyEnum) (label : String)
    (code : EnumValue) :
    (¬ label ∈ enum.members.map EnumMember.name →
      EnumSerializer.to_internal_value enum label =
        .error (.validationError
          (.text ("non-existent key passed to EnumSerializer, available keys are ["
            ++ joinComma (EnumSerializer.allowed_inputs enum) ++ "]"))
          Option.none)) ∧
    (¬ code ∈ enum.members.map EnumMember.value →
      EnumSerializer.to_representation enum code =
        .error (.validationError
          (.text ("code=" ++ pyStrOfEnumValue code
            ++ " has no corresponding value in enum EnumMeta"))
          Option.none)) := by
  constructor
  · intro hl
    have hf : enum.members.find? (fun m => decide (m.name = label)) = none := by
      rw [List.find?_eq_none]
      intro x hx
      simp only [decide_eq_true_eq]
      intro he
      exact hl (he ▸ List.mem_map_of_mem EnumMember.name hx)
    simp [EnumSerializer.to_internal_value, hf]
  · intro hc
    have hf : enum.members.find? (fun m => decide (m.value = code)) = none := by
      rw [List.find?_eq_none]
      intro x hx
      simp only [decide_eq_true_eq]
      intro he
      exact hc (he ▸ List.mem_map_of_mem EnumMember.value hx)
    simp [EnumSerializer.to_representation, hf]

/-- Witness for C7: the unknown label `"B"` raises the error listing the
display forms, and the unmatched code `99` raises the error naming it. -/
theorem enum_unknown_label_code_errors_witness :
    EnumSerializer.to_internal_value tinyEnum "B" =
      .error (.validationError
        (.text "non-existent key passed to EnumSerializer, available keys are [x]")
        Option.none) ∧
    EnumSerializer.to_representation tinyEnum (.int 99) =
      .error (.validationError
        (.text "code=99 has no corresponding value in enum EnumMeta")
        Option.none) :=
  ⟨(enum_unknown_label_code_errors tinyEnum "B" (.int 99)).1 (by decide),
   (enum_unknown_label_code_errors tinyEnum "B" (.int 99)).2 (by decide)⟩

/-- C8: `to_internal_value` always delegates to the input serializer and
`to_representation` to the output serializer; `get_fields` resolves the input
side's fields for mutating request methods (POST/PUT/PATCH), the output
side's fields for any other method, and defaults to the output serializer's
own field set when no request is in context. -/
theorem io_serializer_dispatch (io : IOSerializer) (ctx : SerializerContext)
    (req : Request) (data instance_ : String) (fs : List (String × Nat)) :
    (io.to_internal_value data = io.input_serializer.tiv data) ∧
    (io.to_representation instance_ = io.output_serializer.trp instance_) ∧
    (ctx.request = some req → req.method ∈ ["POST", "PUT", "PATCH"] →
      io.get_fields ctx = .ok io.input_serializer.resolvedFields) ∧
    (ctx.request = some req → ¬ req.method ∈ ["POST", "PUT", "PATCH"] →
      io.get_fields ctx = .ok io.output_serializer.resolvedFields) ∧
    (ctx.request = none → io.output_serializer.ownFields = some fs →
      io.get_fields ctx = .ok fs) := by
  refine ⟨rfl, rfl, fun hreq hm => ?_, fun hreq hm => ?_, fun hreq hfs => ?_⟩
  · simp only [IOSerializer.get_fields, hreq]
    rw [if_pos hm]
    cases hb : io.input_serializer.isFieldInstance <;>
      simp [SerSide.resolvedFields, hb]
  · simp only [IOSerializer.get_fields, hreq]
    rw [if_neg hm]
    cases hb : io.output_serializer.isFieldInstance <;>
      simp [SerSide.resolvedFields, hb]
  · simp [IOSerializer.get_fields, hreq, hfs]

/-- Witness for C8: the docstring example bound to a POST request exposes the
input field, bound to a GET request exposes the output field, and with no
request exposes the output serializer's own field set. -/
theorem io_serializer_dispatch_witness :
    exIOSerializer.get_fields { request := some { method := "POST" } } =
      .ok [("user", 1)] ∧
    exIOSerializer.get_fields { request := some { method := "GET" } } =
      .ok [("user", 2)] ∧
    exIOSerializer.get_fields { request := none } = .ok [("id", 10), ("name", 11)] :=
  ⟨(io_serializer_dispatch exIOSerializer _ { method := "POST" } "" "" []).2.2.1
      rfl (by decide),
   (io_serializer_dispatch exIOSerializer _ { method := "GET" } "" "" []).2.2.2.1
      rfl (by decide),
   (io_serializer_dispatch exIOSerializer _ { method := "" } "" ""
        [("id", 10), ("name", 11)]).2.2.2.2 rfl rfl⟩

/-- C9: the claim (and the djkit method's own docstring) says `get_permissions`
falls back to the `permission_classes_<action>` attribute before the base
default list.  The djkit code skips that attribute: for the custom action
`eat` with `permission_classes_eat = [7]` it resolves `[]` from the base
`permission_classes`.  The per-action map itself works (standard action
`create` resolves its configured class, instantiated), and the older
drf_common implementation does honour the convention-named attribute. -/
theorem get_permissions_attr_fallback_eval :
    exDjkitViewSet.get_permissions = [] ∧
    exDjkitViewSet.custom_permission_attrs.lookup "permission_classes_eat" =
      some [7] ∧
    exDjkitViewSetCreate.get_permissions = [{ cls := 3 }] ∧
    exCommonViewSet.get_permissions = .ok [{ cls := 7 }] :=
  ⟨rfl, rfl, rfl, rfl⟩

/-- C10: `ObfuscatedEmailField.to_representation` ignores the configured
`char`/`cutoff`/`from_end` and always equals `Obfuscator.email` at the default
parameters (`"*"`, 4, `from_end = true`), unlike `ObfuscatedCharField`, whose
output does depend on the configuration. -/
theorem obfuscated_email_ignores_config (cfg cfg' : ObfuscatedFieldCfg)
    (value : List Char) :
    ObfuscatedEmailField.to_representation cfg value =
      Obfuscator.email value ['*'] 4 true ∧
    ObfuscatedEmailField.to_representation cfg value =
      ObfuscatedEmailField.to_representation cfg' value ∧
    ObfuscatedCharField.to_representation
        { char := ['#'], cutoff := 1, from_end := true } "abc".data ≠
      ObfuscatedCharField.to_representation
        { char := ['*'], cutoff := 4, from_end := true } "abc".data :=
  ⟨rfl, rfl, by decide⟩
